import Mathlib

/-!
Shallow embedding of the `express-version-api` repository (TypeScript) in Lean 4.

Embedded source files:
* `src/version-parser.ts` — `VERSION_REGEX`, `getSpecifiedComponentCount`,
  `parseVersion`, `parseVersionRange`, `versionSatisfies`, `compareVersions`
* `src/version-extractor.ts` — `extractFromHeader`, `extractFromQuery`,
  `extractFromPath`, `extractFromRequest`, `createVersionExtractor`
* `src/handler-compiler.ts` — `calculatePriority`, `compileHandlers`,
  `findMatchingHandler`, `findLatestHandler`, `getAvailableVersions`
* `src/errors.ts` — the error factory functions
* `src/config.ts` — `DEFAULT_CONFIG`
* `src/middleware.ts` — the per-request body of `versioningMiddleware`,
  `handleFallback`, `executeHandler`, `sendErrorResponse`

JavaScript strings are modelled as Lean `String`; numbers appearing as version
components, priorities and status codes are natural numbers (`Nat`) — in the
source they are produced by `parseInt` on digit strings and are always
non-negative there; `compareVersions` returns `Int` (−1/0/1) as in the source.
Handlers are opaque and identified by a `Nat` id; invoking a handler is
modelled by returning a dispatch outcome rather than performing effects.
-/

-- ─────────────────────────────────────────────────────────────────────────────
-- Data model (src/types.ts)
-- ─────────────────────────────────────────────────────────────────────────────

/-- `ParsedVersion` from `src/types.ts`. -/
structure ParsedVersion where
  major : Nat
  minor : Nat
  patch : Nat
  raw : String
deriving Repr, DecidableEq

/-- `VersionRangeType` from `src/types.ts`. -/
inductive VersionRangeType where
  | caret
  | tilde
  | exact
deriving Repr, DecidableEq

/-- `ParsedVersionRange` from `src/types.ts`. -/
structure ParsedVersionRange where
  type : VersionRangeType
  version : ParsedVersion
  raw : String
deriving Repr, DecidableEq

-- ─────────────────────────────────────────────────────────────────────────────
-- Character-level model of the JavaScript string primitives used by the parser
-- ─────────────────────────────────────────────────────────────────────────────

/-- The code points removed by JavaScript `String.prototype.trim`
(WhiteSpace ∪ LineTerminator of the ECMAScript spec). -/
def jsWhitespaceCodes : List Nat :=
  [9, 10, 11, 12, 13, 32, 160, 5760,
   8192, 8193, 8194, 8195, 8196, 8197, 8198, 8199, 8200, 8201, 8202,
   8232, 8233, 8239, 8287, 12288, 65279]

/-- Whether `String.prototype.trim` removes this character. -/
def isJsWhitespace (c : Char) : Bool :=
  jsWhitespaceCodes.contains c.toNat

/-- Model of JavaScript `String.prototype.trim` on the character list:
drop whitespace from both ends. -/
def trimChars (cs : List Char) : List Char :=
  ((cs.dropWhile isJsWhitespace).reverse.dropWhile isJsWhitespace).reverse

/-- Model of JavaScript `String.prototype.trim`. -/
def jsTrim (s : String) : String :=
  String.mk (trimChars s.toList)

/-- The regex character class `\d` (ASCII decimal digit). -/
def isDigitB (c : Char) : Bool :=
  48 ≤ c.toNat && c.toNat ≤ 57

-- ─────────────────────────────────────────────────────────────────────────────
-- VERSION_REGEX (src/version-parser.ts line 11)
--   /^(\^|~)?(\d+)(?:\.(\d+))?(?:\.(\d+))?$/
-- ─────────────────────────────────────────────────────────────────────────────

/-- Matches `(\d+)(?:\.(\d+))?(?:\.(\d+))?$` against a character list,
returning the three capture groups (group 2 mandatory, 3 and 4 optional).
Greedy matching of `\d+` is exact here because the character after each
digit run is `.` or end-of-input, so no backtracking can occur. -/
def matchVersionCore (cs : List Char) : Option (String × Option String × Option String) :=
  let (d1, rest1) := cs.span isDigitB
  if d1.isEmpty then none
  else
    match rest1 with
    | [] => some (String.mk d1, none, none)
    | '.' :: rest2 =>
      let (d2, rest3) := rest2.span isDigitB
      if d2.isEmpty then none
      else
        match rest3 with
        | [] => some (String.mk d1, some (String.mk d2), none)
        | '.' :: rest4 =>
          let (d3, rest5) := rest4.span isDigitB
          if d3.isEmpty then none
          else if rest5.isEmpty then
            some (String.mk d1, some (String.mk d2), some (String.mk d3))
          else none
        | _ => none
    | _ => none

/-- `VERSION_REGEX.exec` model: returns `(group1, group2, group3, group4)` =
(optional `^`/`~` marker, major digits, minor digits, patch digits). -/
def matchVersionRegex (s : String) :
    Option (Option Char × String × Option String × Option String) :=
  match s.toList with
  | [] => none
  | c :: rest =>
    if c = '^' ∨ c = '~' then
      (matchVersionCore rest).map fun (a, b, d) => (some c, a, b, d)
    else
      (matchVersionCore (c :: rest)).map fun (a, b, d) => (none, a, b, d)

/-- Model of `parseInt(str, 10)` on the digit strings produced by
`VERSION_REGEX` (always a non-empty run of ASCII digits, so the source's
`isNaN` and negativity checks can never fire on them), idealized to the
exact integer value of the digit string.  JavaScript's `parseInt` actually
returns an IEEE-754 binary64 number, which loses precision from 2^53 on;
`parseIntJs` below refines this model with that rounding and carries the
claims for which the exactness itself is at issue. -/
def parseIntDec (s : String) : Nat :=
  s.toList.foldl (fun a c => 10 * a + (c.toNat - 48)) 0

/-- `replace(/^[\^~]/, '')` — strip one leading `^` or `~` marker. -/
def stripRangeMarker (s : String) : String :=
  match s.toList with
  | c :: rest => if c = '^' ∨ c = '~' then String.mk rest else s
  | [] => s

/-- `getSpecifiedComponentCount` (src/version-parser.ts lines 16–29).
In the source: `withoutPrefix.split('.').length`, clamped to 1–3.  For any
JavaScript string, `s.split('.').length` equals (number of `'.'`
occurrences in `s`) + 1, which is how the count is computed here. -/
def getSpecifiedComponentCount (rawRange : String) : Nat :=
  let withoutMarker := stripRangeMarker rawRange
  let count := (withoutMarker.toList.filter (fun c => c = '.')).length + 1
  if count ≤ 1 then 1
  else if count = 2 then 2
  else 3

-- ─────────────────────────────────────────────────────────────────────────────
-- parseVersion / parseVersionRange (src/version-parser.ts lines 49–126)
-- ─────────────────────────────────────────────────────────────────────────────

/-- `parseVersion` (src/version-parser.ts lines 49–79).
The source destructures the regex match as `[, , majorStr, minorStr, patchStr]`,
discarding the prefix capture group — a leading `^`/`~` is therefore accepted
and silently ignored, exactly as modelled here.  The `isNaN` and negativity
checks of the source are vacuous on regex-matched digit strings. -/
def parseVersion (version : String) : Option ParsedVersion :=
  let trimmed := jsTrim version
  match matchVersionRegex trimmed with
  | none => none
  | some (_, majorStr, minorStr, patchStr) =>
    let major := parseIntDec majorStr
    let minor := parseIntDec (minorStr.getD "0")
    let patch := parseIntDec (patchStr.getD "0")
    some ⟨major, minor, patch, trimmed⟩

/-- `parseVersionRange` (src/version-parser.ts lines 94–126). -/
def parseVersionRange (range : String) : Option ParsedVersionRange :=
  let trimmed := jsTrim range
  match matchVersionRegex trimmed with
  | none => none
  | some (marker, majorStr, minorStr, patchStr) =>
    let major := parseIntDec majorStr
    let minor := parseIntDec (minorStr.getD "0")
    let patch := parseIntDec (patchStr.getD "0")
    let type : VersionRangeType :=
      if marker = some '^' then .caret
      else if marker = some '~' then .tilde
      else .exact
    some ⟨type, ⟨major, minor, patch, stripRangeMarker trimmed⟩, trimmed⟩

/-- Floor of log₂ with explicit fuel (structural recursion on the fuel, so
the kernel can evaluate it). -/
def log2Go : Nat → Nat → Nat
  | 0, _ => 0
  | fuel + 1, n => if n ≥ 2 then log2Go fuel (n / 2) + 1 else 0

/-- `⌊log₂ n⌋` (0 for `n = 0`), kernel-evaluable. -/
def natLog2 (n : Nat) : Nat := log2Go n n

/-- Round a non-negative integer to the nearest IEEE-754 binary64 value
(round-to-nearest, ties-to-even): exact below 2^53, otherwise rounded to the
nearest multiple of 2^(⌊log₂ n⌋ − 52).  Values at or above 2^1024 would be
Infinity in JavaScript and are outside this model (a version digit string of
309+ digits). -/
def roundToDouble (n : Nat) : Nat :=
  if n < 2 ^ 53 then n
  else
    let shift := natLog2 n - 52
    let unit := 2 ^ shift
    let q := n / unit
    let r := n % unit
    if 2 * r < unit then q * unit
    else if 2 * r > unit then (q + 1) * unit
    else if q % 2 = 0 then q * unit else (q + 1) * unit

/-- JS-faithful model of `parseInt(str, 10)` on `VERSION_REGEX` digit
strings: the exact integer value of the digits, returned as the nearest
binary64 number (`parseInt("9007199254740993")` is `9007199254740992`). -/
def parseIntJs (s : String) : Nat :=
  roundToDouble (parseIntDec s)

/-- `parseVersion` (src/version-parser.ts lines 49–79) with `parseInt`
modelled JS-faithfully (`parseIntJs`, binary64 rounding included) instead of
the exact-integer idealization: identical to `parseVersion` in every other
respect. -/
def parseVersionJs (version : String) : Option ParsedVersion :=
  let trimmed := jsTrim version
  match matchVersionRegex trimmed with
  | none => none
  | some (_, majorStr, minorStr, patchStr) =>
    let major := parseIntJs majorStr
    let minor := parseIntJs (minorStr.getD "0")
    let patch := parseIntJs (patchStr.getD "0")
    some ⟨major, minor, patch, trimmed⟩

-- ─────────────────────────────────────────────────────────────────────────────
-- versionSatisfies / compareVersions (src/version-parser.ts lines 154–238)
-- ─────────────────────────────────────────────────────────────────────────────

/-- `versionSatisfies` (src/version-parser.ts lines 154–214). -/
def versionSatisfies (clientVersion : ParsedVersion) (range : ParsedVersionRange) : Bool :=
  let cMajor := clientVersion.major
  let cMinor := clientVersion.minor
  let cPatch := clientVersion.patch
  let rMajor := range.version.major
  let rMinor := range.version.minor
  let rPatch := range.version.patch
  match range.type with
  | .caret =>
    if cMajor ≠ rMajor then false
    else if rMajor > 0 then
      if cMinor < rMinor then false
      else if cMinor = rMinor ∧ cPatch < rPatch then false
      else true
    else if rMinor > 0 then
      cMinor = rMinor && cPatch ≥ rPatch
    else
      let componentCount := getSpecifiedComponentCount range.raw
      if componentCount = 1 then true
      else if componentCount = 2 then cMinor = 0
      else cMinor = 0 && cPatch = rPatch
  | .tilde =>
    if cMajor ≠ rMajor ∨ cMinor ≠ rMinor then false
    else cPatch ≥ rPatch
  | .exact =>
    cMajor = rMajor && cMinor = rMinor && cPatch = rPatch

/-- `compareVersions` (src/version-parser.ts lines 227–238). -/
def compareVersions (a b : ParsedVersion) : Int :=
  if a.major ≠ b.major then (if a.major > b.major then 1 else -1)
  else if a.minor ≠ b.minor then (if a.minor > b.minor then 1 else -1)
  else if a.patch ≠ b.patch then (if a.patch > b.patch then 1 else -1)
  else 0

/-- Glue: parse a range string and test satisfaction (`versionSatisfies` after
`parseVersionRange`); an unparsable range satisfies nothing. -/
def satRange (rangeStr : String) (v : ParsedVersion) : Bool :=
  match parseVersionRange rangeStr with
  | some r => versionSatisfies v r
  | none => false

-- ─────────────────────────────────────────────────────────────────────────────
-- Decimal printing (specification-side: the canonical "M.m.p" string)
-- ─────────────────────────────────────────────────────────────────────────────

/-- Decimal digits, least significant first, with enough `fuel` to terminate
(structural recursion on the fuel so the kernel can evaluate it). -/
def decDigitsGo : Nat → Nat → List Nat
  | 0, _ => []
  | fuel + 1, n => if n = 0 then [] else (n % 10) :: decDigitsGo fuel (n / 10)

/-- Decimal digits of `n`, least significant first (`[]` for 0). -/
def decDigitsRec (n : Nat) : List Nat := decDigitsGo n n

/-- Decimal digits of `n`, least significant first, with `0 ↦ [0]`. -/
def decDigitsPad (n : Nat) : List Nat :=
  if n = 0 then [0] else decDigitsRec n

/-- The ASCII character of a decimal digit. -/
def digitChar (d : Nat) : Char := Char.ofNat (48 + d)

/-- Characters of the canonical decimal representation of `n`. -/
def decChars (n : Nat) : List Char :=
  (decDigitsPad n).reverse.map digitChar

/-- Canonical decimal string of `n`. -/
def decStr (n : Nat) : String := String.mk (decChars n)

/-- The canonical `"M.m.p"` version string. -/
def canonicalVersionString (M m p : Nat) : String :=
  decStr M ++ "." ++ decStr m ++ "." ++ decStr p

-- ─────────────────────────────────────────────────────────────────────────────
-- VersioningError and factories (src/types.ts, src/errors.ts)
-- ─────────────────────────────────────────────────────────────────────────────

/-- `VersioningError` (src/types.ts): `(code, message, requestedVersion?,
availableVersions?, statusCode)`. -/
structure VError where
  code : String
  message : String
  requestedVersion : Option String
  availableVersions : Option (List String)
  statusCode : Nat
deriving Repr, DecidableEq

/-- `createMissingVersionError` (src/errors.ts). -/
def createMissingVersionError (statusCode : Nat := 422)
    (message : String := "API version is required") : VError :=
  ⟨"MISSING_VERSION", message, none, none, statusCode⟩

/-- `createVersionNotFoundError` (src/errors.ts). -/
def createVersionNotFoundError (requestedVersion : String)
    (availableVersions : List String) (statusCode : Nat := 422) : VError :=
  ⟨"VERSION_NOT_FOUND",
   "No handler found for API version \x27" ++ requestedVersion ++ "\x27",
   some requestedVersion, some availableVersions, statusCode⟩

/-- `createInvalidVersionFormatError` (src/errors.ts lines 45–57): note the
fixed default status 400 — this error has no configuration knob. -/
def createInvalidVersionFormatError (version : String) (statusCode : Nat := 400) : VError :=
  ⟨"INVALID_VERSION_FORMAT", "Invalid version format: \x27" ++ version ++ "\x27",
   some version, none, statusCode⟩

/-- `createInvalidHandlerError` (src/errors.ts). -/
def createInvalidHandlerError (key reason : String) : VError :=
  ⟨"INVALID_HANDLER", "Invalid handler for version \x27" ++ key ++ "\x27: " ++ reason,
   none, none, 500⟩

-- ─────────────────────────────────────────────────────────────────────────────
-- Handler compiler (src/handler-compiler.ts)
-- ─────────────────────────────────────────────────────────────────────────────

/-- `CompiledHandler` (src/types.ts): handlers are opaque, identified by a
`Nat` id. -/
structure CompiledHandler where
  key : String
  range : ParsedVersionRange
  handler : Nat
  priority : Nat
deriving Repr, DecidableEq

/-- `calculatePriority` (src/handler-compiler.ts lines 26–41). -/
def calculatePriority (handler : CompiledHandler) : Nat :=
  let versionValue :=
    handler.range.version.major * 1000000 +
    handler.range.version.minor * 1000 +
    handler.range.version.patch
  match handler.range.type with
  | .exact => 1000000000 + versionValue
  | .tilde => 500000000 + versionValue
  | .caret => versionValue

/-- Insert into a descending-by-priority list, after any element of equal
priority (so the overall sort is stable, like `Array.prototype.sort` with the
comparator `(a, b) => b.priority - a.priority`). -/
def insertByPriorityDesc (h : CompiledHandler) :
    List CompiledHandler → List CompiledHandler
  | [] => [h]
  | x :: xs =>
    if x.priority ≥ h.priority then x :: insertByPriorityDesc h xs
    else h :: x :: xs

/-- Stable sort by descending priority:
`compiled.sort((a, b) => b.priority - a.priority)`. -/
def sortByPriorityDesc (l : List CompiledHandler) : List CompiledHandler :=
  l.foldl (fun acc h => insertByPriorityDesc h acc) []

/-- The collection loop of `compileHandlers`: parse each key, throwing on an
invalid key when `validate` is set, skipping it otherwise.  (The source's
`typeof handler !== 'function'` check cannot fire in the model, where every
handler id denotes a function.)  The source mutates `priority` from 0 to
`calculatePriority` right after constructing the record; the model builds the
record with the final priority directly. -/
def compileHandlersGo (validate : Bool) :
    List (String × Nat) → Except VError (List CompiledHandler)
  | [] => .ok []
  | (key, handler) :: rest =>
    match parseVersionRange key with
    | none =>
      if validate then
        .error (createInvalidHandlerError key
          "invalid version format. Expected: \x221.0.0\x22, \x22^1.0\x22, \x22~1.2\x22, etc.")
      else compileHandlersGo validate rest
    | some range =>
      match compileHandlersGo validate rest with
      | .error e => .error e
      | .ok compiled =>
        let c : CompiledHandler := ⟨key, range, handler, 0⟩
        .ok ({ c with priority := calculatePriority c } :: compiled)

/-- `compileHandlers` (src/handler-compiler.ts lines 61–100): the handler
mapping is modelled as an association list in object-key insertion order. -/
def compileHandlers (handlers : List (String × Nat)) (validate : Bool := true) :
    Except VError (List CompiledHandler) :=
  (compileHandlersGo validate handlers).map sortByPriorityDesc

/-- `findMatchingHandler` (src/handler-compiler.ts lines 118–129): first
satisfied handler in priority order. -/
def findMatchingHandler (clientVersion : ParsedVersion)
    (compiledHandlers : List CompiledHandler) : Option CompiledHandler :=
  compiledHandlers.find? fun h => versionSatisfies clientVersion h.range

/-- The loop body of `findLatestHandler`: keep the running `latest`, replacing
it when the next handler's base version compares strictly greater. -/
def latestStep (latest : Option CompiledHandler) (h : CompiledHandler) :
    Option CompiledHandler :=
  match latest with
  | none => some h
  | some cur =>
    if compareVersions h.range.version cur.range.version > 0 then some h
    else latest

/-- `findLatestHandler` (src/handler-compiler.ts lines 137–153). -/
def findLatestHandler (compiledHandlers : List CompiledHandler) :
    Option CompiledHandler :=
  if compiledHandlers.isEmpty then none
  else compiledHandlers.foldl latestStep none

/-- `getAvailableVersions` (src/handler-compiler.ts lines 161–163). -/
def getAvailableVersions (compiledHandlers : List CompiledHandler) : List String :=
  compiledHandlers.map (·.key)

/-- Projection used to state ordering facts about a compilation result:
the `(kind, key)` sequence of the compiled route list. -/
def compiledKinds (r : Except VError (List CompiledHandler)) :
    List (VersionRangeType × String) :=
  match r with
  | .ok l => l.map fun h => (h.range.type, h.key)
  | .error _ => []

-- ─────────────────────────────────────────────────────────────────────────────
-- Version extractor (src/version-extractor.ts)
-- ─────────────────────────────────────────────────────────────────────────────

/-- `VersionSource` (src/types.ts). -/
inductive VersionSource where
  | header
  | query
  | path
  | custom
deriving Repr, DecidableEq

/-- `ExtractionResult` (src/types.ts). -/
structure ExtractionResult where
  version : String
  source : VersionSource
deriving Repr, DecidableEq

/-- Model of a JavaScript `RegExp` object: the `global`/`sticky` flags and the
pure matching function.  `exec s i` runs the pattern against `s` starting at
offset `i` and yields `(result, endOffset)`, where `result` is `none` on no
match and `some g1` on a match whose first capture group is `g1` (`some none`
for a match without a defined group 1). -/
structure RegExpModel where
  global : Bool
  sticky : Bool
  exec : String → Nat → Option (Option String) × Nat

/-- `RegExp.prototype.exec` statefulness: a global/sticky pattern starts at
`lastIndex`, stores the match end back into `lastIndex`, and resets
`lastIndex` to 0 on failure; a plain pattern always starts at 0 and leaves
`lastIndex` untouched. -/
def regexExec (pattern : RegExpModel) (s : String) (lastIndex : Nat) :
    Option (Option String) × Nat :=
  if pattern.global || pattern.sticky then
    match pattern.exec s lastIndex with
    | (some g, newIndex) => (some g, newIndex)
    | (none, _) => (none, 0)
  else ((pattern.exec s 0).1, lastIndex)

/-- The request abstraction consumed by the extractor: the optional pre-set
`req.version` field, the header map (`string | string[]` values), the query
map (non-string values are absent) and the `path`/`url` strings. -/
structure RequestModel where
  version : Option String
  headers : String → Option (String ⊕ List String)
  query : String → Option String
  path : String
  url : String

/-- `extractFromHeader` (src/version-extractor.ts lines 336–349). -/
def extractFromHeader (req : RequestModel) (headerName : String) : Option String :=
  match req.headers headerName.toLower with
  | some (.inl value) => if jsTrim value ≠ "" then some (jsTrim value) else none
  | some (.inr values) =>
    match values with
    | [] => none
    | v0 :: _ => if v0 ≠ "" then some (jsTrim v0) else none
  | none => none

/-- `extractFromQuery` (src/version-extractor.ts lines 358–366). -/
def extractFromQuery (req : RequestModel) (paramName : String) : Option String :=
  match req.query paramName with
  | some value => if jsTrim value ≠ "" then some (jsTrim value) else none
  | none => none

/-- `extractFromPath` (src/version-extractor.ts lines 375–394): threads the
pattern's `lastIndex` explicitly in place of the source's mutation, resetting
it before and after the `exec` when the pattern is global/sticky. -/
def extractFromPath (req : RequestModel) (pattern : RegExpModel)
    (lastIndex : Nat) : Option String × Nat :=
  let path := if req.path ≠ "" then req.path else req.url
  let isStatefulPattern := pattern.global || pattern.sticky
  let before := if isStatefulPattern then 0 else lastIndex
  let (m, after) := regexExec pattern path before
  let final := if isStatefulPattern then 0 else after
  match m with
  | some (some g1) => (if g1 ≠ "" then some (jsTrim g1) else none, final)
  | some none => (none, final)
  | none => (none, final)

/-- `extractFromRequest` (src/version-extractor.ts lines 402–408). -/
def extractFromRequest (req : RequestModel) : Option String :=
  match req.version with
  | some v => if jsTrim v ≠ "" then some (jsTrim v) else none
  | none => none

-- ─────────────────────────────────────────────────────────────────────────────
-- Configuration (src/types.ts, src/config.ts)
-- ─────────────────────────────────────────────────────────────────────────────

structure HeaderVersionConfig where
  name : String

structure QueryVersionConfig where
  name : String

structure PathVersionConfig where
  pattern : RegExpModel

structure VersionExtractionConfig where
  sources : List VersionSource
  header : HeaderVersionConfig
  query : QueryVersionConfig
  path : PathVersionConfig
  custom : Option (RequestModel → Option String)

/-- `errorResponse` of `ResolvedConfig`; `onError` receives the error (the
`req`/`res`/`next` arguments carry no information in the model) and returns
whether it handled the response. -/
structure ErrorResponseConfig where
  missingVersionStatus : Nat
  versionNotFoundStatus : Nat
  missingVersionMessage : String
  versionNotFoundMessage : String ⊕ (String → String)
  includeRequestedVersion : Bool
  onError : Option (VError → Bool)

/-- `FallbackStrategy` (src/types.ts). -/
inductive FallbackStrategy where
  | latest
  | none
  | default
deriving Repr, DecidableEq

/-- `ResolvedConfig` (src/types.ts): the default handler, when present, is an
opaque handler like the compiled ones. -/
structure ResolvedConfig where
  extraction : VersionExtractionConfig
  errorResponse : ErrorResponseConfig
  fallbackStrategy : FallbackStrategy
  defaultHandler : Option Nat
  validateHandlers : Bool
  attachVersionInfo : Bool
  requireVersion : Bool

/-- One step of the attempt at position `cs` for the default path pattern
`/\/v(\d+(?:\.\d+)?(?:\.\d+)?)\//`: consume an optional `.`‑digits group. -/
def tryDotDigits (cs : List Char) : List Char × List Char :=
  match cs with
  | '.' :: rest =>
    let (ds, r) := rest.span isDigitB
    if ds.isEmpty then ([], cs) else ('.' :: ds, r)
  | _ => ([], cs)

/-- Attempt the default path pattern at the current position. -/
def tryMatchVAt (cs : List Char) : Option String :=
  match cs with
  | '/' :: 'v' :: rest =>
    let (d1, r1) := rest.span isDigitB
    if d1.isEmpty then none
    else
      let (g2, r2) := tryDotDigits r1
      let (g3, r3) := tryDotDigits r2
      match r3 with
      | '/' :: _ => some (String.mk (d1 ++ g2 ++ g3))
      | _ => none
  | _ => none

/-- Leftmost match of the default path pattern. -/
def scanForVersionPath : List Char → Option String
  | [] => none
  | c :: rest =>
    match tryMatchVAt (c :: rest) with
    | some g => some g
    | none => scanForVersionPath rest

/-- The default `extraction.path.pattern` `/\/v(\d+(?:\.\d+)?(?:\.\d+)?)\//`
(src/config.ts line 21): not global, not sticky. -/
def defaultPathPattern : RegExpModel :=
  { global := false
    sticky := false
    exec := fun s _ =>
      match scanForVersionPath s.toList with
      | some g => (some (some g), 0)
      | none => (none, 0) }

/-- `DEFAULT_CONFIG` (src/config.ts lines 11–38). -/
def DEFAULT_CONFIG : ResolvedConfig :=
  { extraction :=
    { sources := [.header, .query]
      header := ⟨"accept-version"⟩
      query := ⟨"v"⟩
      path := ⟨defaultPathPattern⟩
      custom := none }
    errorResponse :=
    { missingVersionStatus := 422
      versionNotFoundStatus := 422
      missingVersionMessage := "API version is required"
      versionNotFoundMessage := .inl "No handler found for the requested API version"
      includeRequestedVersion := true
      onError := none }
    fallbackStrategy := .default
    defaultHandler := none
    validateHandlers := true
    attachVersionInfo := true
    requireVersion := true }

-- ─────────────────────────────────────────────────────────────────────────────
-- createVersionExtractor (src/version-extractor.ts lines 420–461)
-- ─────────────────────────────────────────────────────────────────────────────

/-- The `for (const source of sources)` loop of the extractor closure; the
path pattern's `lastIndex` is threaded explicitly. -/
def extractSourcesLoop (cfg : ResolvedConfig) (req : RequestModel) :
    List VersionSource → Nat → Option ExtractionResult × Nat
  | [], lastIndex => (none, lastIndex)
  | source :: rest, lastIndex =>
    let step : Option String × Nat :=
      match source with
      | .header => (extractFromHeader req cfg.extraction.header.name, lastIndex)
      | .query => (extractFromQuery req cfg.extraction.query.name, lastIndex)
      | .path => extractFromPath req cfg.extraction.path.pattern lastIndex
      | .custom => (cfg.extraction.custom.bind fun f => f req, lastIndex)
    match step.1 with
    | some v =>
      if v ≠ "" then (some ⟨v, source⟩, step.2)
      else extractSourcesLoop cfg req rest step.2
    | none => extractSourcesLoop cfg req rest step.2

/-- `createVersionExtractor` (src/version-extractor.ts lines 420–461): the
pre-set `req.version` is always consulted first and, when it yields the
version, the result is tagged `source: 'custom'`. -/
def createVersionExtractor (cfg : ResolvedConfig) (req : RequestModel)
    (lastIndex : Nat) : Option ExtractionResult × Nat :=
  match extractFromRequest req with
  | some requestVersion => (some ⟨requestVersion, .custom⟩, lastIndex)
  | none => extractSourcesLoop cfg req cfg.extraction.sources lastIndex

-- ─────────────────────────────────────────────────────────────────────────────
-- Dispatch engine (src/middleware.ts)
-- ─────────────────────────────────────────────────────────────────────────────

/-- `req.versionInfo` (src/types.ts). -/
structure VersionInfo where
  requested : String
  matched : String
  source : VersionSource
deriving Repr, DecidableEq

/-- The JSON body built by `sendErrorResponse` (src/middleware.ts lines
48–62): `{ error, message, requestedVersion?, availableVersions? }`. -/
structure ErrorBody where
  error : String
  message : String
  requestedVersion : Option String
  availableVersions : Option (List String)
deriving Repr, DecidableEq

/-- The terminal action of one request through the middleware: invoke a
compiled handler (with the `versionInfo` it attached, if any), invoke the
configured default handler, send an error response, or defer to the `onError`
hook. -/
inductive MwOutcome where
  | execute (handler : CompiledHandler) (info : Option VersionInfo)
  | executeDefault (info : Option VersionInfo)
  | respond (status : Nat) (body : ErrorBody)
  | hookHandled (error : VError)
deriving Repr, DecidableEq

/-- `getVersionNotFoundMessage` (src/middleware.ts lines 68–76). -/
def getVersionNotFoundMessage (version : String) (cfg : ResolvedConfig) : String :=
  match cfg.errorResponse.versionNotFoundMessage with
  | .inl m => m
  | .inr f => f version

/-- The default branch of `sendErrorResponse` (src/middleware.ts lines
48–62): `requestedVersion` is included only when configured and truthy,
`availableVersions` only when present and non-empty. -/
def defaultErrorResponse (error : VError) (cfg : ResolvedConfig) : MwOutcome :=
  let requestedVersion :=
    match error.requestedVersion with
    | some rv =>
      if cfg.errorResponse.includeRequestedVersion && rv ≠ "" then some rv else none
    | none => none
  let availableVersions :=
    match error.availableVersions with
    | some avs => if avs.length > 0 then some avs else none
    | none => none
  .respond error.statusCode ⟨error.code, error.message, requestedVersion, availableVersions⟩

/-- `sendErrorResponse` (src/middleware.ts lines 33–63). -/
def sendErrorResponse (error : VError) (cfg : ResolvedConfig) : MwOutcome :=
  match cfg.errorResponse.onError with
  | some onError =>
    if onError error then .hookHandled error else defaultErrorResponse error cfg
  | none => defaultErrorResponse error cfg

/-- `handleFallback` (src/middleware.ts lines 204–287).  In the `latest` and
`default` branches the attached metadata hard-codes `source: 'header'`
(source comment: "Default since we're falling back"); the model reproduces
this. -/
def handleFallback (requestedVersion : Option String)
    (compiledHandlers : List CompiledHandler) (cfg : ResolvedConfig)
    (availableVersions : List String) : MwOutcome :=
  let fallbackInfo : String → Option VersionInfo := fun matchedKey =>
    match requestedVersion with
    | some rv =>
      if cfg.attachVersionInfo && rv ≠ "" then
        some ⟨rv, matchedKey, VersionSource.header⟩
      else none
    | none => none
  match cfg.fallbackStrategy with
  | .none =>
    let e := createVersionNotFoundError (requestedVersion.getD "unknown")
      availableVersions cfg.errorResponse.versionNotFoundStatus
    let e := { e with message := getVersionNotFoundMessage (requestedVersion.getD "unknown") cfg }
    sendErrorResponse e cfg
  | .latest =>
    match findLatestHandler compiledHandlers with
    | some latestHandler => .execute latestHandler (fallbackInfo latestHandler.key)
    | none =>
      sendErrorResponse (createVersionNotFoundError (requestedVersion.getD "unknown")
        availableVersions cfg.errorResponse.versionNotFoundStatus) cfg
  | .default =>
    match cfg.defaultHandler with
    | some _ => .executeDefault (fallbackInfo "default")
    | none =>
      match findLatestHandler compiledHandlers with
      | some latestHandler => .execute latestHandler (fallbackInfo latestHandler.key)
      | none =>
        sendErrorResponse (createVersionNotFoundError (requestedVersion.getD "unknown")
          availableVersions cfg.errorResponse.versionNotFoundStatus) cfg

/-- The per-request body of `versioningMiddleware` (src/middleware.ts lines
146–194), taking the extraction result as input (the extractor itself is
modelled separately). -/
def versioningStep (cfg : ResolvedConfig) (compiledHandlers : List CompiledHandler)
    (availableVersions : List String) (extraction : Option ExtractionResult) :
    MwOutcome :=
  match extraction with
  | none =>
    if !cfg.requireVersion then
      handleFallback none compiledHandlers cfg availableVersions
    else
      sendErrorResponse (createMissingVersionError cfg.errorResponse.missingVersionStatus) cfg
  | some extractionResult =>
    let versionString := extractionResult.version
    let source := extractionResult.source
    match parseVersion versionString with
    | none => sendErrorResponse (createInvalidVersionFormatError versionString) cfg
    | some clientVersion =>
      match findMatchingHandler clientVersion compiledHandlers with
      | some matchedHandler =>
        .execute matchedHandler
          (if cfg.attachVersionInfo then
            some ⟨versionString, matchedHandler.key, source⟩
          else none)
      | none => handleFallback (some versionString) compiledHandlers cfg availableVersions

-- ─────────────────────────────────────────────────────────────────────────────
-- Handler invocation semantics (src/middleware.ts lines 251–310)
-- ─────────────────────────────────────────────────────────────────────────────

/-- How an invoked handler behaves: complete synchronously, throw
synchronously, or return a promise that resolves or rejects. -/
inductive HandlerBehavior where
  | syncOk
  | syncThrow (e : Nat)
  | asyncOk
  | asyncReject (e : Nat)
deriving Repr, DecidableEq

/-- What an invocation does to the framework's error channel: the errors
passed to `next`, a synchronous exception escaping the middleware frame, and
a promise rejection left without any handler attached. -/
structure InvocationEffects where
  nextErrors : List Nat
  escapedThrow : Option Nat
  unhandledRejection : Option Nat
deriving Repr, DecidableEq

/-- `executeHandler` (src/middleware.ts lines 292–310): the call is wrapped
in try/catch (`next(error)` on a synchronous throw) and a returned promise
gets `.catch(error => next(error))`. -/
def executeHandler (behavior : HandlerBehavior) : InvocationEffects :=
  match behavior with
  | .syncOk => ⟨[], none, none⟩
  | .asyncOk => ⟨[], none, none⟩
  | .syncThrow e => ⟨[e], none, none⟩
  | .asyncReject e => ⟨[e], none, none⟩

/-- The configured default handler is invoked as
`void Promise.resolve(config.defaultHandler(req, res, next))`
(src/middleware.ts line 261): no try/catch around the call and no `.catch`
on the promise, so a synchronous throw escapes the middleware frame and a
rejection is left unobserved. -/
def invokeDefaultHandler (behavior : HandlerBehavior) : InvocationEffects :=
  match behavior with
  | .syncOk => ⟨[], none, none⟩
  | .asyncOk => ⟨[], none, none⟩
  | .syncThrow e => ⟨[], some e, none⟩
  | .asyncReject e => ⟨[], none, some e⟩


-- ─────────────────────────────────────────────────────────────────────────────
-- Auxiliary definitions for the statements and proofs
-- ─────────────────────────────────────────────────────────────────────────────

/-- Value of a least-significant-first digit list. -/
def vLSD : List Nat → Nat
  | [] => 0
  | d :: ds => d + 10 * vLSD ds

-- Concrete instances used by the claim theorems and witnesses.

/-- The compiled route for the handler mapping `{ "1.0.0": h₀ }`. -/
def exactHandler100 : CompiledHandler :=
  ⟨"1.0.0", ⟨.exact, ⟨1, 0, 0, "1.0.0"⟩, "1.0.0"⟩, 0, 1001000000⟩

/-- The compiled routes for the handler mapping `{ "^1": h₀, "^2": h₁, "^3": h₂ }`
(in compiled, priority-sorted order). -/
def caretHandler3 : CompiledHandler := ⟨"^3", ⟨.caret, ⟨3, 0, 0, "3"⟩, "^3"⟩, 2, 3000000⟩

def caretHandler2 : CompiledHandler := ⟨"^2", ⟨.caret, ⟨2, 0, 0, "2"⟩, "^2"⟩, 1, 2000000⟩

def caretHandler1 : CompiledHandler := ⟨"^1", ⟨.caret, ⟨1, 0, 0, "1"⟩, "^1"⟩, 0, 1000000⟩

/-- Default configuration narrowed to query extraction (parameter `version`)
with the `latest` fallback strategy — the setup of the repository's own
"preserve extraction source ... latest fallback" test. -/
def cfgQueryLatest : ResolvedConfig :=
  { DEFAULT_CONFIG with
    extraction := { DEFAULT_CONFIG.extraction with
      sources := [.query], query := ⟨"version"⟩ }
    fallbackStrategy := .latest }

/-- Default configuration with the `default` fallback strategy and a
configured default handler. -/
def cfgWithDefaultHandler : ResolvedConfig :=
  { DEFAULT_CONFIG with fallbackStrategy := .default, defaultHandler := some 7 }

/-- Default configuration with custom error statuses 455 / 456. -/
def cfgCustomStatuses : ResolvedConfig :=
  { DEFAULT_CONFIG with
    errorResponse := { DEFAULT_CONFIG.errorResponse with
      missingVersionStatus := 455, versionNotFoundStatus := 456 } }

/-- A request carrying the query parameter `version=99.0.0` and nothing else. -/
def reqQuery99 : RequestModel :=
  { version := none
    headers := fun _ => none
    query := fun name => if name = "version" then some "99.0.0" else none
    path := "/api"
    url := "/api" }

/-- A global (hence stateful) pattern instance for the frame-condition
witness: matches with capture group "7" at even offsets only, so its result
visibly depends on the start offset unless the offset is reset. -/
def statefulPatternW : RegExpModel :=
  { global := true
    sticky := false
    exec := fun _ i => if i % 2 = 0 then (some (some "7"), i + 3) else (none, 0) }

/-- A request with a pre-set `req.version` field for the extractor witness. -/
def reqPreset : RequestModel :=
  { version := some " 2.1.0 "
    headers := fun name => if name = "accept-version" then some (.inl "9.9.9") else none
    query := fun _ => none
    path := "/api"
    url := "/api" }

/-- A request without a pre-set version, for the custom-extractor witness. -/
def reqBare : RequestModel :=
  { version := none
    headers := fun _ => none
    query := fun _ => none
    path := "/api"
    url := "/api" }

/-- Configuration whose only source is a custom extractor returning "3.2.1". -/
def cfgCustomOnly : ResolvedConfig :=
  { DEFAULT_CONFIG with
    extraction := { DEFAULT_CONFIG.extraction with
      sources := [.custom]
      custom := some fun _ => some "3.2.1" } }

-- ─────────────────────────────────────────────────────────────────────────────
-- Helper lemmas: strings, trimming, digit spans, decimal printing
-- ─────────────────────────────────────────────────────────────────────────────

theorem dropWhile_all_false {p : Char → Bool} :
    ∀ {l : List Char}, (∀ c ∈ l, p c = false) → l.dropWhile p = l := by
  intro l h
  cases l with
  | nil => rfl
  | cons c rest =>
    have hc : p c = false := h c (by simp)
    simp [List.dropWhile, hc]

theorem trimChars_eq_self {l : List Char}
    (h : ∀ c ∈ l, isJsWhitespace c = false) : trimChars l = l := by
  unfold trimChars
  rw [dropWhile_all_false h]
  rw [dropWhile_all_false (by intro c hc; exact h c (List.mem_reverse.mp hc))]
  exact List.reverse_reverse l

theorem jsTrim_eq_self {s : String}
    (h : ∀ c ∈ s.toList, isJsWhitespace c = false) : jsTrim s = s := by
  unfold jsTrim
  rw [trimChars_eq_self h]
  cases s
  rfl

theorem takeWhile_all_append {p : Char → Bool} :
    ∀ (l1 l2 : List Char), (∀ c ∈ l1, p c = true) →
      (∀ c, l2.head? = some c → p c = false) →
      (l1 ++ l2).takeWhile p = l1 := by
  intro l1
  induction l1 with
  | nil =>
    intro l2 _ h2
    cases l2 with
    | nil => rfl
    | cons c rest => simp [List.takeWhile, h2 c rfl]
  | cons c rest ih =>
    intro l2 h1 h2
    have hc : p c = true := h1 c (by simp)
    simp only [List.cons_append, List.takeWhile, hc, List.append_eq]
    rw [ih l2 (fun d hd => h1 d (by simp [hd])) h2]

theorem dropWhile_all_append {p : Char → Bool} :
    ∀ (l1 l2 : List Char), (∀ c ∈ l1, p c = true) →
      (∀ c, l2.head? = some c → p c = false) →
      (l1 ++ l2).dropWhile p = l2 := by
  intro l1
  induction l1 with
  | nil =>
    intro l2 _ h2
    cases l2 with
    | nil => rfl
    | cons c rest => simp [List.dropWhile, h2 c rfl]
  | cons c rest ih =>
    intro l2 h1 h2
    have hc : p c = true := h1 c (by simp)
    simp only [List.cons_append, List.dropWhile, hc, List.append_eq]
    exact ih l2 (fun d hd => h1 d (by simp [hd])) h2

theorem span_all_append {p : Char → Bool} (l1 l2 : List Char)
    (h1 : ∀ c ∈ l1, p c = true)
    (h2 : ∀ c, l2.head? = some c → p c = false) :
    (l1 ++ l2).span p = (l1, l2) := by
  rw [List.span_eq_take_drop, takeWhile_all_append l1 l2 h1 h2,
    dropWhile_all_append l1 l2 h1 h2]

theorem digitChar_toNat {d : Nat} (h : d < 10) : (digitChar d).toNat = 48 + d := by
  interval_cases d <;> decide

theorem isDigitB_digitChar {d : Nat} (h : d < 10) : isDigitB (digitChar d) = true := by
  interval_cases d <;> decide

theorem digitChar_ne_dot {d : Nat} (h : d < 10) : digitChar d ≠ '.' := by
  interval_cases d <;> decide

theorem digitChar_ne_caret {d : Nat} (h : d < 10) :
    ¬(digitChar d = '^' ∨ digitChar d = '~') := by
  interval_cases d <;> decide

theorem isJsWhitespace_digitChar {d : Nat} (h : d < 10) :
    isJsWhitespace (digitChar d) = false := by
  interval_cases d <;> decide

theorem decDigitsGo_val : ∀ (fuel n : Nat), n ≤ fuel → vLSD (decDigitsGo fuel n) = n := by
  intro fuel
  induction fuel with
  | zero =>
    intro n hn
    interval_cases n
    rfl
  | succ fuel ih =>
    intro n hn
    by_cases h0 : n = 0
    · subst h0; simp [decDigitsGo, vLSD]
    · have hrec : n / 10 ≤ fuel := by
        have hlt : n / 10 < n := Nat.div_lt_self (Nat.pos_of_ne_zero h0) (by omega)
        omega
      simp only [decDigitsGo, h0, if_false, vLSD]
      rw [ih _ hrec]
      omega

theorem decDigitsGo_lt10 : ∀ (fuel n : Nat), ∀ d ∈ decDigitsGo fuel n, d < 10 := by
  intro fuel
  induction fuel with
  | zero => intro n d hd; simp [decDigitsGo] at hd
  | succ fuel ih =>
    intro n d hd
    by_cases h0 : n = 0
    · subst h0; simp [decDigitsGo] at hd
    · simp only [decDigitsGo, h0, if_false, List.mem_cons] at hd
      rcases hd with h | h
      · subst h; exact Nat.mod_lt _ (by omega)
      · exact ih _ d h

theorem decDigitsPad_val (n : Nat) : vLSD (decDigitsPad n) = n := by
  unfold decDigitsPad
  by_cases h : n = 0
  · subst h; rfl
  · simp only [h, if_false]
    exact decDigitsGo_val n n le_rfl

theorem decDigitsPad_lt10 (n : Nat) : ∀ d ∈ decDigitsPad n, d < 10 := by
  unfold decDigitsPad
  by_cases h : n = 0
  · subst h; intro d hd; simp at hd; omega
  · simp only [h, if_false]
    exact decDigitsGo_lt10 n n

theorem decDigitsPad_ne_nil (n : Nat) : decDigitsPad n ≠ [] := by
  unfold decDigitsPad
  by_cases h : n = 0
  · subst h; simp
  · simp only [h, if_false]
    cases n with
    | zero => exact absurd rfl h
    | succ m => simp [decDigitsRec, decDigitsGo]

theorem decChars_ne_nil (n : Nat) : decChars n ≠ [] := by
  unfold decChars
  intro h
  exact decDigitsPad_ne_nil n (by
    have := List.map_eq_nil_iff.mp h
    exact List.reverse_eq_nil_iff.mp this)

theorem decChars_mem {n : Nat} {c : Char} (hc : c ∈ decChars n) :
    ∃ d, d < 10 ∧ c = digitChar d := by
  unfold decChars at hc
  rcases List.mem_map.mp hc with ⟨d, hd, hcd⟩
  exact ⟨d, decDigitsPad_lt10 n d (List.mem_reverse.mp hd), hcd.symm⟩

theorem decChars_all_digit (n : Nat) : ∀ c ∈ decChars n, isDigitB c = true := by
  intro c hc
  rcases decChars_mem hc with ⟨d, hd, rfl⟩
  exact isDigitB_digitChar hd

theorem decChars_not_dot (n : Nat) : ∀ c ∈ decChars n, c ≠ '.' := by
  intro c hc
  rcases decChars_mem hc with ⟨d, hd, rfl⟩
  exact digitChar_ne_dot hd

theorem decChars_not_white (n : Nat) : ∀ c ∈ decChars n, isJsWhitespace c = false := by
  intro c hc
  rcases decChars_mem hc with ⟨d, hd, rfl⟩
  exact isJsWhitespace_digitChar hd

theorem foldl_digits (L : List Nat) (hL : ∀ d ∈ L, d < 10) :
    ∀ acc : Nat,
      (L.reverse.map digitChar).foldl (fun a c => 10 * a + (c.toNat - 48)) acc =
      acc * 10 ^ L.length + vLSD L := by
  induction L with
  | nil => intro acc; simp [vLSD]
  | cons d t ih =>
    intro acc
    have hd : d < 10 := hL d (by simp)
    simp only [List.reverse_cons, List.map_append, List.foldl_append, List.map_cons,
      List.map_nil, List.foldl_cons, List.foldl_nil]
    rw [ih (fun x hx => hL x (by simp [hx])) acc]
    rw [digitChar_toNat hd]
    simp only [vLSD, List.length_cons]
    ring_nf
    omega

theorem span_all {p : Char → Bool} (l : List Char) (h : ∀ c ∈ l, p c = true) :
    l.span p = (l, []) := by
  have h2 := span_all_append l [] h (by intro c hc; simp at hc)
  simpa using h2

theorem decChars_isEmpty_false (n : Nat) : (decChars n).isEmpty = false := by
  cases h : decChars n with
  | nil => exact absurd h (decChars_ne_nil n)
  | cons c rest => rfl

theorem parseIntDec_decStr (n : Nat) : parseIntDec (decStr n) = n := by
  show (decChars n).foldl (fun a c => 10 * a + (c.toNat - 48)) 0 = n
  unfold decChars
  rw [foldl_digits (decDigitsPad n) (decDigitsPad_lt10 n) 0]
  simp [decDigitsPad_val]

theorem stringToList_append (s t : String) : (s ++ t).toList = s.toList ++ t.toList := by
  cases s
  cases t
  rfl

theorem canonicalVersionString_toList (M m p : Nat) :
    (canonicalVersionString M m p).toList =
      decChars M ++ '.' :: (decChars m ++ '.' :: decChars p) := by
  unfold canonicalVersionString
  rw [stringToList_append, stringToList_append, stringToList_append, stringToList_append]
  show decChars M ++ ['.'] ++ decChars m ++ ['.'] ++ decChars p = _
  simp

theorem matchVersionCore_canonical (M m p : Nat) :
    matchVersionCore (decChars M ++ '.' :: (decChars m ++ '.' :: decChars p)) =
      some (decStr M, some (decStr m), some (decStr p)) := by
  have h1 : (decChars M ++ '.' :: (decChars m ++ '.' :: decChars p)).span isDigitB
      = (decChars M, '.' :: (decChars m ++ '.' :: decChars p)) := by
    apply span_all_append _ _ (decChars_all_digit M)
    intro c hc
    simp only [List.head?] at hc
    cases hc
    decide
  have h2 : (decChars m ++ '.' :: decChars p).span isDigitB
      = (decChars m, '.' :: decChars p) := by
    apply span_all_append _ _ (decChars_all_digit m)
    intro c hc
    simp only [List.head?] at hc
    cases hc
    decide
  have h3 : (decChars p).span isDigitB = (decChars p, []) :=
    span_all (decChars p) (decChars_all_digit p)
  simp only [matchVersionCore, h1, h2, h3, decChars_isEmpty_false, Bool.false_eq_true,
    if_false, List.isEmpty_nil, if_true]
  rfl

theorem matchVersionRegex_canonical (M m p : Nat) :
    matchVersionRegex (canonicalVersionString M m p) =
      some (none, decStr M, some (decStr m), some (decStr p)) := by
  obtain ⟨c, rest, hcr⟩ : ∃ c rest, decChars M = c :: rest := by
    cases h : decChars M with
    | nil => exact absurd h (decChars_ne_nil M)
    | cons c rest => exact ⟨c, rest, rfl⟩
  have hcmem : c ∈ decChars M := by rw [hcr]; simp
  have hnot : ¬(c = '^' ∨ c = '~') := by
    rcases decChars_mem hcmem with ⟨d, hd, rfl⟩
    exact digitChar_ne_caret hd
  unfold matchVersionRegex
  rw [canonicalVersionString_toList, hcr, List.cons_append]
  simp only [hnot, if_false]
  rw [← List.cons_append, ← hcr, matchVersionCore_canonical]
  rfl

theorem canonicalVersionString_not_white (M m p : Nat) :
    ∀ c ∈ (canonicalVersionString M m p).toList, isJsWhitespace c = false := by
  rw [canonicalVersionString_toList]
  intro c hc
  simp only [List.mem_append, List.mem_cons] at hc
  rcases hc with h | h | h | h | h
  · exact decChars_not_white M c h
  · subst h; decide
  · exact decChars_not_white m c h
  · subst h; decide
  · exact decChars_not_white p c h

theorem parseVersion_canonical (M m p : Nat) :
    parseVersion (canonicalVersionString M m p) =
      some ⟨M, m, p, canonicalVersionString M m p⟩ := by
  have htrim : jsTrim (canonicalVersionString M m p) = canonicalVersionString M m p :=
    jsTrim_eq_self (canonicalVersionString_not_white M m p)
  unfold parseVersion
  rw [htrim]
  simp only [matchVersionRegex_canonical]
  simp [parseIntDec_decStr]

theorem stringMk_toList (s : String) : String.mk s.toList = s := by
  cases s
  rfl

theorem compareVersions_le_zero_iff (a b : ParsedVersion) :
    compareVersions a b ≤ 0 ↔
      (a.major < b.major ∨ (a.major = b.major ∧
        (a.minor < b.minor ∨ (a.minor = b.minor ∧ a.patch ≤ b.patch)))) := by
  unfold compareVersions
  split_ifs <;> constructor <;> intro h <;> omega

theorem compareVersions_gt_zero_iff (a b : ParsedVersion) :
    compareVersions a b > 0 ↔
      (b.major < a.major ∨ (b.major = a.major ∧
        (b.minor < a.minor ∨ (b.minor = a.minor ∧ b.patch < a.patch)))) := by
  unfold compareVersions
  split_ifs <;> constructor <;> intro h <;> omega

theorem compareVersions_le_refl (a : ParsedVersion) : compareVersions a a ≤ 0 := by
  rw [compareVersions_le_zero_iff]
  omega

theorem compareVersions_le_trans {a b c : ParsedVersion}
    (h1 : compareVersions a b ≤ 0) (h2 : compareVersions b c ≤ 0) :
    compareVersions a c ≤ 0 := by
  rw [compareVersions_le_zero_iff] at h1 h2 ⊢
  omega

theorem compareVersions_gt_flip {a b : ParsedVersion}
    (h : compareVersions a b > 0) : compareVersions b a ≤ 0 := by
  rw [compareVersions_gt_zero_iff] at h
  rw [compareVersions_le_zero_iff]
  omega

theorem foldl_latest_spec :
    ∀ (l : List CompiledHandler) (cur : CompiledHandler),
      ∃ mh, l.foldl latestStep (some cur) = some mh ∧
        (mh = cur ∨ mh ∈ l) ∧
        compareVersions cur.range.version mh.range.version ≤ 0 ∧
        ∀ h2 ∈ l, compareVersions h2.range.version mh.range.version ≤ 0 := by
  intro l
  induction l with
  | nil =>
    intro cur
    exact ⟨cur, rfl, Or.inl rfl, compareVersions_le_refl _, by simp⟩
  | cons h t ih =>
    intro cur
    by_cases hc : compareVersions h.range.version cur.range.version > 0
    · obtain ⟨mh, hfold, hmem, hcmp, hall⟩ := ih h
      refine ⟨mh, ?_, ?_, ?_, ?_⟩
      · rw [List.foldl_cons]
        show t.foldl latestStep (if compareVersions h.range.version cur.range.version > 0
          then some h else some cur) = some mh
        rw [if_pos hc]
        exact hfold
      · rcases hmem with rfl | hm
        · exact Or.inr (by simp)
        · exact Or.inr (List.mem_cons_of_mem _ hm)
      · exact compareVersions_le_trans (compareVersions_gt_flip hc) hcmp
      · intro h2 hh2
        rcases List.mem_cons.mp hh2 with rfl | hm
        · exact hcmp
        · exact hall h2 hm
    · obtain ⟨mh, hfold, hmem, hcmp, hall⟩ := ih cur
      have hle : compareVersions h.range.version cur.range.version ≤ 0 := by
        rw [compareVersions_gt_zero_iff] at hc
        rw [compareVersions_le_zero_iff]
        omega
      refine ⟨mh, ?_, ?_, ?_, ?_⟩
      · rw [List.foldl_cons]
        show t.foldl latestStep (if compareVersions h.range.version cur.range.version > 0
          then some h else some cur) = some mh
        rw [if_neg hc]
        exact hfold
      · rcases hmem with rfl | hm
        · exact Or.inl rfl
        · exact Or.inr (List.mem_cons_of_mem _ hm)
      · exact hcmp
      · intro h2 hh2
        rcases List.mem_cons.mp hh2 with rfl | hm
        · exact compareVersions_le_trans hle hcmp
        · exact hall h2 hm

theorem findLatestHandler_spec (l : List CompiledHandler) (hl : l ≠ []) :
    ∃ mh, findLatestHandler l = some mh ∧ mh ∈ l ∧
      ∀ h2 ∈ l, compareVersions h2.range.version mh.range.version ≤ 0 := by
  cases l with
  | nil => exact absurd rfl hl
  | cons x t =>
    obtain ⟨mh, hfold, hmem, hcmp, hall⟩ := foldl_latest_spec t x
    refine ⟨mh, ?_, ?_, ?_⟩
    · show (if (x :: t).isEmpty then none else (x :: t).foldl latestStep none) = some mh
      rw [if_neg (by simp)]
      rw [List.foldl_cons]
      exact hfold
    · rcases hmem with rfl | hm
      · exact List.mem_cons_self _ _
      · exact List.mem_cons_of_mem _ hm
    · intro h2 hh2
      rcases List.mem_cons.mp hh2 with rfl | hm
      · exact hcmp
      · exact hall h2 hm

theorem caret0mString_toList (m : Nat) :
    ("^0." ++ decStr m).toList = '^' :: '0' :: '.' :: decChars m := by
  rw [stringToList_append]
  rfl

theorem parseVersionRange_caret0m (m : Nat) :
    parseVersionRange ("^0." ++ decStr m) =
      some ⟨.caret, ⟨0, m, 0, "0." ++ decStr m⟩, "^0." ++ decStr m⟩ := by
  have htrim : jsTrim ("^0." ++ decStr m) = "^0." ++ decStr m := by
    apply jsTrim_eq_self
    rw [caret0mString_toList]
    intro c hc
    simp only [List.mem_cons] at hc
    rcases hc with h | h | h | h
    · subst h; decide
    · subst h; decide
    · subst h; decide
    · exact decChars_not_white m c h
  have hcore : matchVersionCore ('0' :: '.' :: decChars m) =
      some ("0", some (decStr m), none) := by
    have h1 : ('0' :: '.' :: decChars m).span isDigitB =
        (['0'], '.' :: decChars m) := by
      have hsp := span_all_append (p := isDigitB) ['0'] ('.' :: decChars m)
        (by intro c hc; simp at hc; subst hc; decide)
        (by intro c hc; simp only [List.head?] at hc; cases hc; decide)
      simpa using hsp
    have h2 : (decChars m).span isDigitB = (decChars m, []) :=
      span_all (decChars m) (decChars_all_digit m)
    simp only [matchVersionCore, h1, h2, decChars_isEmpty_false, Bool.false_eq_true,
      if_false, List.isEmpty_cons, List.isEmpty_nil, if_true]
    rfl
  have hregex : matchVersionRegex ("^0." ++ decStr m) =
      some (some '^', "0", some (decStr m), none) := by
    unfold matchVersionRegex
    rw [caret0mString_toList]
    simp only [reduceIte, hcore]
    rfl
  have hstrip : stripRangeMarker ("^0." ++ decStr m) = "0." ++ decStr m := by
    unfold stripRangeMarker
    rw [caret0mString_toList]
    show (if ('^' = '^' ∨ '^' = '~') then ({ data := '0' :: '.' :: decChars m } : String)
      else "^0." ++ decStr m) = "0." ++ decStr m
    rw [if_pos (Or.inl rfl)]
    have hts : ('0' :: '.' :: decChars m) = ("0." ++ decStr m).toList := by
      rw [stringToList_append]; rfl
    rw [hts, stringMk_toList]
  unfold parseVersionRange
  rw [htrim]
  simp only [hregex, hstrip]
  simp [parseIntDec_decStr]
  rfl

theorem satRange_caret023 (v : ParsedVersion) :
    satRange "^0.2.3" v = true ↔ (v.major = 0 ∧ v.minor = 2 ∧ 3 ≤ v.patch) := by
  have h : parseVersionRange "^0.2.3" =
      some ⟨.caret, ⟨0, 2, 3, "0.2.3"⟩, "^0.2.3"⟩ := by decide
  unfold satRange
  rw [h]
  rcases v with ⟨vM, vm, vp, vraw⟩
  show versionSatisfies ⟨vM, vm, vp, vraw⟩ ⟨.caret, ⟨0, 2, 3, "0.2.3"⟩, "^0.2.3"⟩ = true ↔ _
  unfold versionSatisfies
  dsimp only
  split_ifs <;> simp_all <;> omega

theorem satRange_caret003 (v : ParsedVersion) :
    satRange "^0.0.3" v = true ↔ (v.major = 0 ∧ v.minor = 0 ∧ v.patch = 3) := by
  have h : parseVersionRange "^0.0.3" =
      some ⟨.caret, ⟨0, 0, 3, "0.0.3"⟩, "^0.0.3"⟩ := by decide
  unfold satRange
  rw [h]
  rcases v with ⟨vM, vm, vp, vraw⟩
  show versionSatisfies ⟨vM, vm, vp, vraw⟩ ⟨.caret, ⟨0, 0, 3, "0.0.3"⟩, "^0.0.3"⟩ = true ↔ _
  unfold versionSatisfies
  dsimp only
  have hc : getSpecifiedComponentCount "^0.0.3" = 3 := by decide
  rw [hc]
  split_ifs <;> simp_all <;> omega

theorem satRange_caret0 (v : ParsedVersion) :
    satRange "^0" v = true ↔ v.major = 0 := by
  have h : parseVersionRange "^0" = some ⟨.caret, ⟨0, 0, 0, "0"⟩, "^0"⟩ := by decide
  unfold satRange
  rw [h]
  rcases v with ⟨vM, vm, vp, vraw⟩
  show versionSatisfies ⟨vM, vm, vp, vraw⟩ ⟨.caret, ⟨0, 0, 0, "0"⟩, "^0"⟩ = true ↔ _
  unfold versionSatisfies
  dsimp only
  have hc : getSpecifiedComponentCount "^0" = 1 := by decide
  rw [hc]
  split_ifs <;> simp_all

theorem satRange_caret0m (m : Nat) (v : ParsedVersion) :
    satRange ("^0." ++ decStr m) v = true ↔ (v.major = 0 ∧ v.minor = m) := by
  have h := parseVersionRange_caret0m m
  unfold satRange
  rw [h]
  rcases v with ⟨vM, vm, vp, vraw⟩
  show versionSatisfies ⟨vM, vm, vp, vraw⟩
    ⟨.caret, ⟨0, m, 0, "0." ++ decStr m⟩, "^0." ++ decStr m⟩ = true ↔ _
  unfold versionSatisfies
  dsimp only
  by_cases hm : m = 0
  · subst hm
    have hc : getSpecifiedComponentCount ("^0." ++ decStr 0) = 2 := by decide
    rw [hc]
    split_ifs <;> simp_all <;> omega
  · split_ifs <;> simp_all <;> omega

theorem sendErrorResponse_respond {e : VError} {cfg : ResolvedConfig}
    (hOn : cfg.errorResponse.onError = none) {status : Nat} {body : ErrorBody}
    (heq : sendErrorResponse e cfg = .respond status body) :
    status = e.statusCode ∧ body.error = e.code := by
  unfold sendErrorResponse at heq
  rw [hOn] at heq
  unfold defaultErrorResponse at heq
  injection heq with h1 h2
  subst h1
  subst h2
  exact ⟨rfl, rfl⟩

theorem handleFallback_respond {requested : Option String}
    {ch : List CompiledHandler} {cfg : ResolvedConfig} {avail : List String}
    (hOn : cfg.errorResponse.onError = none) {status : Nat} {body : ErrorBody}
    (heq : handleFallback requested ch cfg avail = .respond status body) :
    body.error = "VERSION_NOT_FOUND" ∧
    status = cfg.errorResponse.versionNotFoundStatus := by
  unfold handleFallback at heq
  rcases hstrat : cfg.fallbackStrategy with _ | _ | _ <;> rw [hstrat] at heq <;>
    dsimp only at heq
  · rcases hlat : findLatestHandler ch with _ | lh <;> rw [hlat] at heq <;>
      dsimp only at heq
    · have h := sendErrorResponse_respond hOn heq
      exact ⟨h.2, h.1⟩
    · exact absurd heq (by simp)
  · have h := sendErrorResponse_respond hOn heq
    exact ⟨h.2, h.1⟩
  · rcases hdef : cfg.defaultHandler with _ | d <;> rw [hdef] at heq <;>
      dsimp only at heq
    · rcases hlat : findLatestHandler ch with _ | lh <;> rw [hlat] at heq <;>
        dsimp only at heq
      · have h := sendErrorResponse_respond hOn heq
        exact ⟨h.2, h.1⟩
      · exact absurd heq (by simp)
    · exact absurd heq (by simp)

theorem versioningStep_respond_status
    (cfg : ResolvedConfig) (ch : List CompiledHandler) (avail : List String)
    (ext : Option ExtractionResult) (status : Nat) (body : ErrorBody)
    (hOn : cfg.errorResponse.onError = none)
    (heq : versioningStep cfg ch avail ext = .respond status body) :
    (body.error = "MISSING_VERSION" ∨ body.error = "VERSION_NOT_FOUND" ∨
      body.error = "INVALID_VERSION_FORMAT") ∧
    (body.error = "MISSING_VERSION" → status = cfg.errorResponse.missingVersionStatus) ∧
    (body.error = "VERSION_NOT_FOUND" → status = cfg.errorResponse.versionNotFoundStatus) ∧
    (body.error = "INVALID_VERSION_FORMAT" → status = 400) := by
  unfold versioningStep at heq
  rcases ext with _ | er
  · dsimp only at heq
    rcases hreq : cfg.requireVersion with _ | _ <;> rw [hreq] at heq <;>
      simp only [Bool.not_false, Bool.not_true, reduceIte] at heq
    · have h := handleFallback_respond hOn heq
      refine ⟨Or.inr (Or.inl h.1), ?_, fun _ => h.2, ?_⟩
      · intro hc; rw [h.1] at hc; exact absurd hc (by decide)
      · intro hc; rw [h.1] at hc; exact absurd hc (by decide)
    · have h := sendErrorResponse_respond hOn heq
      have hcode : body.error = "MISSING_VERSION" := h.2
      have hstat : status = cfg.errorResponse.missingVersionStatus := h.1
      refine ⟨Or.inl hcode, fun _ => hstat, ?_, ?_⟩
      · intro hc; rw [hcode] at hc; exact absurd hc (by decide)
      · intro hc; rw [hcode] at hc; exact absurd hc (by decide)
  · dsimp only at heq
    rcases hp : parseVersion er.version with _ | cv <;> rw [hp] at heq <;>
      dsimp only at heq
    · have h := sendErrorResponse_respond hOn heq
      have hcode : body.error = "INVALID_VERSION_FORMAT" := h.2
      have hstat : status = 400 := h.1
      refine ⟨Or.inr (Or.inr hcode), ?_, ?_, fun _ => hstat⟩
      · intro hc; rw [hcode] at hc; exact absurd hc (by decide)
      · intro hc; rw [hcode] at hc; exact absurd hc (by decide)
    · rcases hm : findMatchingHandler cv ch with _ | mh <;> rw [hm] at heq <;>
        dsimp only at heq
      · have h := handleFallback_respond hOn heq
        refine ⟨Or.inr (Or.inl h.1), ?_, fun _ => h.2, ?_⟩
        · intro hc; rw [h.1] at hc; exact absurd hc (by decide)
        · intro hc; rw [h.1] at hc; exact absurd hc (by decide)
      · exact absurd heq (by simp)

theorem extractFromPath_stateful {pattern : RegExpModel}
    (h : (pattern.global || pattern.sticky) = true) (req : RequestModel) (li : Nat) :
    extractFromPath req pattern li = extractFromPath req pattern 0 ∧
    (extractFromPath req pattern li).2 = 0 := by
  unfold extractFromPath
  simp only [h, if_true]
  constructor
  · trivial
  · split <;> rfl

theorem createVersionExtractor_preset (cfg : ResolvedConfig) (req : RequestModel)
    (s : String) (li : Nat) (hv : req.version = some s) (hne : jsTrim s ≠ "") :
    (createVersionExtractor cfg req li).1 = some ⟨jsTrim s, .custom⟩ := by
  unfold createVersionExtractor extractFromRequest
  rw [hv]
  dsimp only
  rw [if_pos hne]

theorem extractSourcesLoop_custom_head (cfg : ResolvedConfig) (req : RequestModel)
    (rest : List VersionSource) (li : Nat) (f : RequestModel → Option String)
    (v : String) (hcustom : cfg.extraction.custom = some f)
    (hf : f req = some v) (hne : v ≠ "") :
    extractSourcesLoop cfg req (.custom :: rest) li = (some ⟨v, .custom⟩, li) := by
  unfold extractSourcesLoop
  dsimp only
  rw [hcustom]
  simp only [Option.some_bind, hf]
  rw [if_pos hne]

theorem createVersionExtractor_custom (cfg : ResolvedConfig) (req : RequestModel)
    (f : RequestModel → Option String) (v : String) (li : Nat)
    (hreq : extractFromRequest req = none)
    (hsrc : cfg.extraction.sources = [.custom])
    (hcustom : cfg.extraction.custom = some f)
    (hf : f req = some v) (hne : v ≠ "") :
    (createVersionExtractor cfg req li).1 = some ⟨v, .custom⟩ := by
  unfold createVersionExtractor
  rw [hreq, hsrc]
  rw [extractSourcesLoop_custom_head cfg req [] li f v hcustom hf hne]

-- ─────────────────────────────────────────────────────────────────────────────
-- Claim theorems
-- ─────────────────────────────────────────────────────────────────────────────

/-- Claim C1 (evaluated at the failing input): a request whose version was
extracted by the query strategy (`?version=99.0.0`, sources `['query']`) and
that then takes the `latest` fallback with `attachVersionInfo` enabled gets
`versionInfo.source = header` — the hard-coded default of `handleFallback` —
and not `query`, the actual extraction origin; so the claimed propagation of
the real source does not hold on this code. -/
theorem C1_fallback_source_hardcoded_header :
    (createVersionExtractor cfgQueryLatest reqQuery99 0).1 = some ⟨"99.0.0", .query⟩ ∧
    versioningStep cfgQueryLatest [exactHandler100] ["1.0.0"] (some ⟨"99.0.0", .query⟩) =
      .execute exactHandler100 (some ⟨"99.0.0", "1.0.0", .header⟩) ∧
    VersionSource.header ≠ VersionSource.query := by
  refine ⟨by decide, by decide, by decide⟩

/-- Claim C2: `versionSatisfies` for caret ranges with major 0 follows
semver's stricter rule — `^0.2.3` matches exactly the `0.2.p` with `p ≥ 3`
(so `0.2.3` and `0.2.9` match, `0.3.0` and `0.9.0` do not), `^0.0.3` matches
only the exact triple `0.0.3`, `^0` matches exactly the versions with major 0
(so not `1.0.0`), and `^0.m` with the patch omitted matches every `0.m.y`. -/
theorem C2_caret_zero_major_semantics :
    (∀ v : ParsedVersion,
      satRange "^0.2.3" v = true ↔ (v.major = 0 ∧ v.minor = 2 ∧ 3 ≤ v.patch)) ∧
    satRange "^0.2.3" ⟨0, 2, 3, "0.2.3"⟩ = true ∧
    satRange "^0.2.3" ⟨0, 2, 9, "0.2.9"⟩ = true ∧
    satRange "^0.2.3" ⟨0, 3, 0, "0.3.0"⟩ = false ∧
    satRange "^0.2.3" ⟨0, 9, 0, "0.9.0"⟩ = false ∧
    (∀ v : ParsedVersion,
      satRange "^0.0.3" v = true ↔ (v.major = 0 ∧ v.minor = 0 ∧ v.patch = 3)) ∧
    (∀ v : ParsedVersion, satRange "^0" v = true ↔ v.major = 0) ∧
    satRange "^0" ⟨1, 0, 0, "1.0.0"⟩ = false ∧
    (∀ (m : Nat) (v : ParsedVersion),
      satRange ("^0." ++ decStr m) v = true ↔ (v.major = 0 ∧ v.minor = m)) :=
  ⟨satRange_caret023, by decide, by decide, by decide, by decide,
   satRange_caret003, satRange_caret0, by decide,
   fun m v => satRange_caret0m m v⟩

/-- Claim C3 (evaluated at the failing input): the priority bands of
`calculatePriority` (`exact` = 10⁹ + v, `tilde` = 5·10⁸ + v, `caret` = v with
v = major·10⁶ + minor·10³ + patch) overlap once a version value reaches
5·10⁸, so for the mapping `{ "~600.0.0": h₀, "1.0.0": h₁ }` the compiled list
puts the tilde route before the exact route — the claimed
exact-before-tilde-before-caret ordering does not hold for every handler
mapping. -/
theorem C3_priority_band_overlap :
    compiledKinds (compileHandlers [("~600.0.0", 0), ("1.0.0", 1)] true) =
      [(.tilde, "~600.0.0"), (.exact, "1.0.0")] ∧
    calculatePriority ⟨"~600.0.0", ⟨.tilde, ⟨600, 0, 0, "600.0.0"⟩, "~600.0.0"⟩, 0, 0⟩ =
      1100000000 ∧
    calculatePriority ⟨"1.0.0", ⟨.exact, ⟨1, 0, 0, "1.0.0"⟩, "1.0.0"⟩, 1, 0⟩ =
      1001000000 := by
  refine ⟨by rfl, by decide, by decide⟩

/-- Claim C4 (counterexample): `parseVersion "^1.0.0"` does not return the
invalid result — the source destructures away the prefix capture group of
`VERSION_REGEX`, so the `^`-prefixed input is accepted, contradicting the
claim that only `parseRange` accepts a prefix. -/
theorem C4_parseVersion_accepts_prefixed : parseVersion "^1.0.0" ≠ none := by decide

/-- Claim C4 (amended): `parseVersion` returns the invalid result — without
raising — for `""`, `"a.b.c"`, `"1.2.3.4"` and `"-1.0.0"`, but a leading `^`
or `~` prefix is accepted and silently ignored (`parseVersion "^1.0.0"`
yields `1.0.0`); the separate `parseVersionRange` entry point records the
prefix instead. -/
theorem C4_parseVersion_rejections_amended :
    parseVersion "" = none ∧
    parseVersion "a.b.c" = none ∧
    parseVersion "1.2.3.4" = none ∧
    parseVersion "-1.0.0" = none ∧
    parseVersion "^1.0.0" = some ⟨1, 0, 0, "^1.0.0"⟩ ∧
    parseVersion "~2.1" = some ⟨2, 1, 0, "~2.1"⟩ ∧
    parseVersionRange "^1.0.0" = some ⟨.caret, ⟨1, 0, 0, "1.0.0"⟩, "^1.0.0"⟩ := by
  refine ⟨by decide, by decide, by decide, by decide, by decide, by decide, by decide⟩

/-- Claim C5 (evaluated at the failing input): handlers invoked through
`executeHandler` (matched and latest-fallback paths) deliver a synchronous
throw and an asynchronous rejection to `next` exactly once, but the
configured default handler is invoked as `void Promise.resolve(...)` with no
try/catch and no `.catch`: its rejection is never delivered to `next` and is
left as an unobserved rejection, and its synchronous throw escapes the
middleware frame — so the claimed exactly-once delivery fails on the
default-handler path (which is reached, as the first conjunct shows). -/
theorem C5_default_handler_rejection_unobserved :
    versioningStep cfgWithDefaultHandler [exactHandler100] ["1.0.0"]
      (some ⟨"99.0.0", .header⟩) =
      .executeDefault (some ⟨"99.0.0", "default", .header⟩) ∧
    (∀ e, executeHandler (.syncThrow e) = ⟨[e], none, none⟩) ∧
    (∀ e, executeHandler (.asyncReject e) = ⟨[e], none, none⟩) ∧
    (∀ e, invokeDefaultHandler (.asyncReject e) = ⟨[], none, some e⟩) ∧
    (∀ e, invokeDefaultHandler (.syncThrow e) = ⟨[], some e, none⟩) :=
  ⟨by decide, fun _ => rfl, fun _ => rfl, fun _ => rfl, fun _ => rfl⟩

/-- Claim C6 (counterexample): with configured statuses
`missingVersionStatus = 455` and `versionNotFoundStatus = 456`, an
unparseable version text still yields status 400 — the fixed default of
`createInvalidVersionFormatError`, not a status drawn from the
configuration — so the claim fails for the `InvalidVersionFormat` kind. -/
theorem C6_invalid_format_status_not_configured :
    versioningStep cfgCustomStatuses [exactHandler100] ["1.0.0"]
      (some ⟨"not-a-version", .header⟩) =
      .respond 400 ⟨"INVALID_VERSION_FORMAT",
        "Invalid version format: \x27not-a-version\x27", some "not-a-version", none⟩ ∧
    cfgCustomStatuses.errorResponse.missingVersionStatus = 455 ∧
    cfgCustomStatuses.errorResponse.versionNotFoundStatus = 456 ∧
    (400 : Nat) ≠ 455 ∧ (400 : Nat) ≠ 456 := by
  refine ⟨by decide, by decide, by decide, by decide, by decide⟩

/-- Claim C6 (amended): every per-request failure responds with a JSON body
whose `error` field is one of the three stable codes; `MISSING_VERSION` uses
the configured `missingVersionStatus` and `VERSION_NOT_FOUND` the configured
`versionNotFoundStatus` (both defaulting to 422, a 4xx status), while
`INVALID_VERSION_FORMAT` always uses the fixed status 400 (also 4xx), which
is not drawn from the configuration. -/
theorem C6_error_status_and_code :
    (∀ (cfg : ResolvedConfig) (ch : List CompiledHandler) (avail : List String)
      (ext : Option ExtractionResult) (status : Nat) (body : ErrorBody),
      cfg.errorResponse.onError = none →
      versioningStep cfg ch avail ext = .respond status body →
      (body.error = "MISSING_VERSION" ∨ body.error = "VERSION_NOT_FOUND" ∨
        body.error = "INVALID_VERSION_FORMAT") ∧
      (body.error = "MISSING_VERSION" → status = cfg.errorResponse.missingVersionStatus) ∧
      (body.error = "VERSION_NOT_FOUND" → status = cfg.errorResponse.versionNotFoundStatus) ∧
      (body.error = "INVALID_VERSION_FORMAT" → status = 400)) ∧
    DEFAULT_CONFIG.errorResponse.missingVersionStatus = 422 ∧
    DEFAULT_CONFIG.errorResponse.versionNotFoundStatus = 422 ∧
    (400 ≤ DEFAULT_CONFIG.errorResponse.missingVersionStatus ∧
      DEFAULT_CONFIG.errorResponse.missingVersionStatus < 500) ∧
    (400 ≤ DEFAULT_CONFIG.errorResponse.versionNotFoundStatus ∧
      DEFAULT_CONFIG.errorResponse.versionNotFoundStatus < 500) ∧
    ((400 : Nat) ≤ 400 ∧ (400 : Nat) < 500) :=
  ⟨versioningStep_respond_status, by decide, by decide, by decide, by decide, by decide⟩

/-- Witness for C6: the amended theorem applied to the default configuration
with no extractable version — the missing-version response carries status
`DEFAULT_CONFIG.errorResponse.missingVersionStatus` (422). -/
theorem C6_error_status_and_code_witness :
    ("MISSING_VERSION" = "MISSING_VERSION" ∨ "MISSING_VERSION" = "VERSION_NOT_FOUND" ∨
      "MISSING_VERSION" = "INVALID_VERSION_FORMAT") ∧
    ("MISSING_VERSION" = "MISSING_VERSION" →
      422 = DEFAULT_CONFIG.errorResponse.missingVersionStatus) ∧
    ("MISSING_VERSION" = "VERSION_NOT_FOUND" →
      422 = DEFAULT_CONFIG.errorResponse.versionNotFoundStatus) ∧
    ("MISSING_VERSION" = "INVALID_VERSION_FORMAT" → 422 = 400) :=
  C6_error_status_and_code.1 DEFAULT_CONFIG [] [] none 422
    ⟨"MISSING_VERSION", "API version is required", none, none⟩ rfl (by decide)

/-- Claim C7: `findLatestHandler` returns, for every non-empty compiled route
list, a member route whose base version compares highest under
`compareVersions` (no other route compares strictly greater), independent of
the route's kind; and with the routes `{^1, ^2, ^3}` and the unmatched client
version `99.0.0`, the `latest` fallback strategy invokes the `^3` handler. -/
theorem C7_findLatestHandler_maximal :
    (∀ (l : List CompiledHandler), l ≠ [] →
      ∃ mh, findLatestHandler l = some mh ∧ mh ∈ l ∧
        ∀ h2 ∈ l, compareVersions h2.range.version mh.range.version ≤ 0) ∧
    compileHandlers [("^1", 0), ("^2", 1), ("^3", 2)] true =
      .ok [caretHandler3, caretHandler2, caretHandler1] ∧
    versioningStep { DEFAULT_CONFIG with fallbackStrategy := .latest }
      [caretHandler3, caretHandler2, caretHandler1] ["^3", "^2", "^1"]
      (some ⟨"99.0.0", .header⟩) =
      .execute caretHandler3 (some ⟨"99.0.0", "^3", .header⟩) :=
  ⟨findLatestHandler_spec, by rfl, by decide⟩

/-- Witness for C7: the maximality statement applied to the concrete
three-route list. -/
theorem C7_findLatestHandler_maximal_witness :
    ∃ mh, findLatestHandler [caretHandler3, caretHandler2, caretHandler1] = some mh ∧
      mh ∈ [caretHandler3, caretHandler2, caretHandler1] ∧
      ∀ h2 ∈ [caretHandler3, caretHandler2, caretHandler1],
        compareVersions h2.range.version mh.range.version ≤ 0 :=
  C7_findLatestHandler_maximal.1 [caretHandler3, caretHandler2, caretHandler1] (by decide)

theorem roundToDouble_small {n : Nat} (h : n < 2 ^ 53) : roundToDouble n = n := by
  unfold roundToDouble
  rw [if_pos h]

theorem parseIntJs_decStr {n : Nat} (h : n < 2 ^ 53) : parseIntJs (decStr n) = n := by
  unfold parseIntJs
  rw [parseIntDec_decStr, roundToDouble_small h]

theorem parseVersionJs_canonical (M m p : Nat) (hM : M < 2 ^ 53) (hm : m < 2 ^ 53)
    (hp : p < 2 ^ 53) :
    parseVersionJs (canonicalVersionString M m p) =
      some ⟨M, m, p, canonicalVersionString M m p⟩ := by
  have htrim : jsTrim (canonicalVersionString M m p) = canonicalVersionString M m p :=
    jsTrim_eq_self (canonicalVersionString_not_white M m p)
  unfold parseVersionJs
  rw [htrim]
  simp only [matchVersionRegex_canonical]
  simp [parseIntJs_decStr hM, parseIntJs_decStr hm, parseIntJs_decStr hp]

/-- Claim C8 (counterexample): `parseVersion` does not round-trip every
triple of non-negative integers — `parseInt` returns a binary64 number, so
the canonical string of the triple `(2^53 + 1, 0, 0)` parses to major
`9007199254740992` (= 2^53), not `9007199254740993`: under the JS-faithful
parse the claimed exact round-trip fails at this concrete input. -/
theorem C8_parseVersion_roundtrip_counterexample :
    parseVersionJs "9007199254740993.0.0" =
      some ⟨9007199254740992, 0, 0, "9007199254740993.0.0"⟩ ∧
    (9007199254740993 : Nat) = 2 ^ 53 + 1 ∧
    (9007199254740992 : Nat) ≠ 9007199254740993 := by
  refine ⟨by decide, by decide, by decide⟩

/-- Claim C8 (amended): under the JS-faithful parse (`parseVersionJs`, whose
`parseInt` model includes IEEE-754 binary64 rounding), the canonical
`"M.m.p"` string round-trips to exactly the triple `(M, m, p)` whenever
every component is below 2^53 — the exact-integer range of JavaScript
numbers — and omitted components default to 0, so `"1"` yields `1.0.0` and
`"1.2"` yields `1.2.0`. -/
theorem C8_parseVersion_roundtrip_amended :
    (∀ M m p : Nat, M < 2 ^ 53 → m < 2 ^ 53 → p < 2 ^ 53 →
      parseVersionJs (canonicalVersionString M m p) =
        some ⟨M, m, p, canonicalVersionString M m p⟩) ∧
    parseVersionJs "1" = some ⟨1, 0, 0, "1"⟩ ∧
    parseVersionJs "1.2" = some ⟨1, 2, 0, "1.2"⟩ :=
  ⟨parseVersionJs_canonical, by decide, by decide⟩

/-- Witness for C8: the amended round-trip applied at the largest exactly
representable component, `(2^53 − 1, 2, 0)`. -/
theorem C8_parseVersion_roundtrip_amended_witness :
    parseVersionJs (canonicalVersionString 9007199254740991 2 0) =
      some ⟨9007199254740991, 2, 0, canonicalVersionString 9007199254740991 2 0⟩ :=
  C8_parseVersion_roundtrip_amended.1 9007199254740991 2 0
    (by decide) (by decide) (by decide)

/-- Claim C9: for a stateful (global or sticky) pattern, `extractFromPath`
resets the pattern's `lastIndex` before and after each use, so its result
does not depend on the incoming match-position state (each call equals a
fresh call at `lastIndex = 0`), the pattern's `lastIndex` is 0 after every
call, and the second of two sequential extractions equals a fresh single
call on its request. -/
theorem C9_path_extraction_state_reset :
    ∀ (pattern : RegExpModel) (req req2 : RequestModel) (li : Nat),
      (pattern.global || pattern.sticky) = true →
      extractFromPath req pattern li = extractFromPath req pattern 0 ∧
      (extractFromPath req pattern li).2 = 0 ∧
      extractFromPath req2 pattern (extractFromPath req pattern li).2 =
        extractFromPath req2 pattern 0 := by
  intro pattern req req2 li h
  obtain ⟨h1, h2⟩ := extractFromPath_stateful h req li
  refine ⟨h1, h2, ?_⟩
  rw [h2]

/-- Witness for C9: the reset property at a concrete global pattern whose
matching function visibly depends on the start offset. -/
theorem C9_path_extraction_state_reset_witness :
    extractFromPath reqBare statefulPatternW 5 = extractFromPath reqBare statefulPatternW 0 ∧
    (extractFromPath reqBare statefulPatternW 5).2 = 0 ∧
    extractFromPath reqBare statefulPatternW (extractFromPath reqBare statefulPatternW 5).2 =
      extractFromPath reqBare statefulPatternW 0 :=
  C9_path_extraction_state_reset statefulPatternW reqBare reqBare 5 (by decide)

/-- Claim C10: the extractor consults the pre-set `req.version` field before
any configured strategy (for every configuration, whether or not `custom` is
among the sources) and tags the result `source: 'custom'` — the same tag a
configured custom extractor's result receives, so the two are
indistinguishable downstream. -/
theorem C10_preset_version_tagged_custom :
    (∀ (cfg : ResolvedConfig) (req : RequestModel) (s : String) (li : Nat),
      req.version = some s → jsTrim s ≠ "" →
      (createVersionExtractor cfg req li).1 = some ⟨jsTrim s, .custom⟩) ∧
    (∀ (cfg : ResolvedConfig) (req : RequestModel) (f : RequestModel → Option String)
      (v : String) (li : Nat),
      extractFromRequest req = none →
      cfg.extraction.sources = [.custom] →
      cfg.extraction.custom = some f →
      f req = some v → v ≠ "" →
      (createVersionExtractor cfg req li).1 = some ⟨v, .custom⟩) :=
  ⟨createVersionExtractor_preset, createVersionExtractor_custom⟩

/-- Witness for C10: a request with pre-set `req.version = " 2.1.0 "` under
the default configuration (whose sources are `[header, query]`, without
`custom`) is tagged `custom`, and so is a configured custom extractor's
result. -/
theorem C10_preset_version_tagged_custom_witness :
    (createVersionExtractor DEFAULT_CONFIG reqPreset 0).1 =
      some ⟨jsTrim " 2.1.0 ", .custom⟩ ∧
    (createVersionExtractor cfgCustomOnly reqBare 0).1 = some ⟨"3.2.1", .custom⟩ :=
  ⟨C10_preset_version_tagged_custom.1 DEFAULT_CONFIG reqPreset " 2.1.0 " 0 rfl (by decide),
   C10_preset_version_tagged_custom.2 cfgCustomOnly reqBare _ "3.2.1" 0 rfl rfl rfl rfl
     (by decide)⟩
